import Mathlib

/-!
Shallow embedding of the Falah trading bot strategy signal engine.

Source files embedded:
* `src/indicators/supertrend.py` — ATR and the SuperTrend forward scan;
* `src/strategies/base.py` — shared strategy helpers;
* `src/strategies/supertrend_strategy.py` — trend-following strategy;
* `src/strategies/macd_rsi_strategy.py` — momentum-combo strategy;
* `src/core/engine.py` — per-cycle orchestrator.

Modelling conventions: Python floats are rationals; a pandas NaN cell is
`none` of an `Option` type, and any comparison against NaN is `false`
(IEEE semantics, which is what the pandas code exercises); Python
`int(...)` is truncation toward zero (`pyint`); Python `min`/`max` of two
values follow the CPython argument order on NaN (`pymin`/`pymax`).
-/

namespace Falah

/-- One OHLCV bar: the required columns of the input DataFrames. -/
structure Bar where
  high : ℚ
  low : ℚ
  close : ℚ
  volume : ℚ
  deriving Repr, DecidableEq, Inhabited

/-- Comparison `a <= b` where either side may be NaN (`none`): a comparison
involving NaN is false. -/
def pyLe (a b : Option ℚ) : Bool :=
  match a, b with
  | some x, some y => decide (x ≤ y)
  | _, _ => false

/-- Comparison `a < b` with NaN semantics. -/
def pyLt (a b : Option ℚ) : Bool :=
  match a, b with
  | some x, some y => decide (x < y)
  | _, _ => false

/-- CPython `min(x, y)`: the second argument is taken only when it compares
strictly smaller, so `min(NaN, y) = NaN` and `min(x, NaN) = x`. -/
def pymin (x y : Option ℚ) : Option ℚ :=
  match x, y with
  | some a, some b => some (if b < a then b else a)
  | a, _ => a

/-- CPython `max(x, y)`: the second argument is taken only when it compares
strictly larger, so `max(NaN, y) = NaN` and `max(x, NaN) = x`. -/
def pymax (x y : Option ℚ) : Option ℚ :=
  match x, y with
  | some a, some b => some (if a < b then b else a)
  | a, _ => a

/-- Python `int(q)`: truncation toward zero. -/
def pyint (q : ℚ) : ℤ :=
  if q < 0 then -Int.floor (-q) else Int.floor q

namespace Indicators

/-- Per-bar true range, from `calculate_atr` in `src/indicators/supertrend.py`:
`max(high - low, |high - prev_close|, |low - prev_close|)`.  On the first bar
`close.shift()` is NaN, and the pandas row-wise `max` skips NaN, leaving
`high - low`. -/
def trueRange (df : List Bar) : List ℚ :=
  (List.range df.length).map (fun i =>
    let b := df.getD i default
    match i with
    | 0 => b.high - b.low
    | j + 1 =>
      let pc := (df.getD j default).close
      max (b.high - b.low) (max |b.high - pc| |b.low - pc|))

/-- Pandas `Series.rolling(period).mean()`: entry `i` is the arithmetic mean
of the `period` values ending at `i`, undefined (NaN) while fewer than
`period` values exist. -/
def rollingMean (period : ℕ) (xs : List ℚ) : List (Option ℚ) :=
  (List.range xs.length).map (fun i =>
    if period ≤ i + 1 ∧ 1 ≤ period then
      some ((((xs.drop (i + 1 - period)).take period).sum) / period)
    else none)

/-- A row of the DataFrame returned by `calculate_atr`: the original bar
columns plus the new `atr` column. -/
structure ATRRow where
  bar : Bar
  atr : Option ℚ
  deriving Repr, DecidableEq, Inhabited

/-- `calculate_atr(df, period)` from `src/indicators/supertrend.py`: works on
a copy of the input and returns it with an `atr` column equal to the rolling
mean of the true range. -/
def calculate_atr (df : List Bar) (period : ℕ) : List ATRRow :=
  (df.zip (rollingMean period (trueRange df))).map (fun p => ⟨p.1, p.2⟩)

theorem length_trueRange (df : List Bar) : (trueRange df).length = df.length := by
  simp [trueRange]

theorem length_rollingMean (period : ℕ) (xs : List ℚ) :
    (rollingMean period xs).length = xs.length := by
  simp [rollingMean]

theorem length_calculate_atr (df : List Bar) (period : ℕ) :
    (calculate_atr df period).length = df.length := by
  simp [calculate_atr, length_rollingMean, length_trueRange]

theorem calculate_atr_getD (df : List Bar) (period : ℕ) (i : ℕ) (hi : i < df.length) :
    (calculate_atr df period).getD i default =
      ⟨df.getD i default, (rollingMean period (trueRange df)).getD i none⟩ := by
  have hlen : (rollingMean period (trueRange df)).length = df.length := by
    simp [length_rollingMean, length_trueRange]
  have hzip : (df.zip (rollingMean period (trueRange df))).length = df.length := by
    simp [List.length_zip, hlen]
  have h1 : i < (df.zip (rollingMean period (trueRange df))).length := by omega
  rw [calculate_atr, List.getD_eq_getElem _ _ (by simpa using h1),
    List.getElem_map, List.getElem_zip,
    List.getD_eq_getElem _ _ hi, List.getD_eq_getElem _ _ (by omega)]

theorem rollingMean_getD (period : ℕ) (xs : List ℚ) (i : ℕ) (hi : i < xs.length) :
    (rollingMean period xs).getD i none =
      (if period ≤ i + 1 ∧ 1 ≤ period then
        some ((((xs.drop (i + 1 - period)).take period).sum) / period)
      else none) := by
  rw [rollingMean, List.getD_eq_getElem _ _ (by simpa using hi), List.getElem_map,
    List.getElem_range]

theorem trueRange_nonneg (df : List Bar) (hhl : ∀ b ∈ df, b.low ≤ b.high) :
    ∀ x ∈ trueRange df, 0 ≤ x := by
  intro x hx
  rw [trueRange, List.mem_map] at hx
  obtain ⟨i, hi, hfx⟩ := hx
  rw [List.mem_range] at hi
  have hb : df.getD i default ∈ df := by
    rw [List.getD_eq_getElem _ _ hi]
    exact List.getElem_mem hi
  have hbar := hhl _ hb
  subst hfx
  match i with
  | 0 => simpa using hbar
  | j + 1 =>
    simp only []
    have h1 : (0 : ℚ) ≤ (df.getD (j+1) default).high - (df.getD (j+1) default).low := by
      linarith
    exact le_trans h1 (le_max_left _ _)

/-- Claim C8: for bars with `high ≥ low`, `calculate_atr` leaves the first
`period − 1` outputs undefined (NaN, not zero), defines every later output as
the rolling arithmetic mean of the true range, and every defined ATR value is
nonnegative. -/
theorem atr_undefined_prefix_and_nonneg (df : List Bar) (period : ℕ)
    (hp : 1 ≤ period) (hhl : ∀ b ∈ df, b.low ≤ b.high) :
    (calculate_atr df period).length = df.length ∧
    ∀ i, i < df.length →
      (((calculate_atr df period).getD i default).atr = none ↔ i + 1 < period) ∧
      (period ≤ i + 1 →
        ((calculate_atr df period).getD i default).atr =
          some (((((trueRange df).drop (i + 1 - period)).take period).sum) / period)) ∧
      ∀ v, ((calculate_atr df period).getD i default).atr = some v → 0 ≤ v := by
  refine ⟨length_calculate_atr df period, fun i hi => ?_⟩
  have hi2 : i < (trueRange df).length := by rw [length_trueRange]; exact hi
  rw [calculate_atr_getD df period i hi]
  simp only []
  rw [rollingMean_getD period (trueRange df) i hi2]
  by_cases hcase : period ≤ i + 1
  · rw [if_pos ⟨hcase, hp⟩]
    refine ⟨⟨fun h => Option.noConfusion h, fun h => absurd hcase (by omega)⟩,
      fun _ => rfl, fun v hv => ?_⟩
    have hsum : (0 : ℚ) ≤ (((trueRange df).drop (i + 1 - period)).take period).sum := by
      apply List.sum_nonneg
      intro x hx
      exact trueRange_nonneg df hhl x (List.mem_of_mem_drop (List.mem_of_mem_take hx))
    have hv2 : (((trueRange df).drop (i + 1 - period)).take period).sum / period = v :=
      Option.some_injective _ hv
    rw [← hv2]
    exact div_nonneg hsum (by positivity)
  · rw [if_neg (fun hc => hcase hc.1)]
    exact ⟨⟨fun _ => by omega, fun _ => rfl⟩, fun h => absurd h hcase,
      fun v hv => Option.noConfusion hv⟩

/-- A row of the DataFrame returned by `calculate_supertrend`: the original
bar columns, the `atr` column used, the two band columns, the `supertrend`
column and the `supertrend_direction` column. -/
structure STRow where
  bar : Bar
  atr : Option ℚ
  upperband : Option ℚ
  lowerband : Option ℚ
  supertrend : Option ℚ
  direction : ℤ
  deriving Repr, DecidableEq, Inhabited

/-- Basic upper band `hl2 + multiplier * atr` (NaN while the ATR is NaN). -/
def basicUpper (multiplier : ℚ) (b : Bar) (a : Option ℚ) : Option ℚ :=
  a.map (fun x => (b.high + b.low) / 2 + multiplier * x)

/-- Basic lower band `hl2 - multiplier * atr` (NaN while the ATR is NaN). -/
def basicLower (multiplier : ℚ) (b : Bar) (a : Option ℚ) : Option ℚ :=
  a.map (fun x => (b.high + b.low) / 2 - multiplier * x)

/-- Basic upper band on defined values, as in the specification text. -/
def basicUpperQ (multiplier : ℚ) (b : Bar) (a : ℚ) : ℚ :=
  (b.high + b.low) / 2 + multiplier * a

/-- Basic lower band on defined values, as in the specification text. -/
def basicLowerQ (multiplier : ℚ) (b : Bar) (a : ℚ) : ℚ :=
  (b.high + b.low) / 2 - multiplier * a

/-- The first row of `calculate_supertrend`: bands are the basic bands, the
`supertrend` column keeps its initialisation value `0.0` and the direction
keeps its initialisation value `1`, because the loop starts at index 1. -/
def stInit (multiplier : ℚ) (b : Bar) (a : Option ℚ) : STRow :=
  ⟨b, a, basicUpper multiplier b a, basicLower multiplier b a, some 0, 1⟩

/-- One iteration of the forward loop of `calculate_supertrend`
(`src/indicators/supertrend.py` lines 55-85): tighten the bands against the
already-adjusted bands of the previous row, pick the direction by comparing the
close against the bands of the previous row, then select the line. -/
def stStep (multiplier : ℚ) (prev : STRow) (b : Bar) (a : Option ℚ) : STRow :=
  let bu := basicUpper multiplier b a
  let bl := basicLower multiplier b a
  let ub := if pyLe (some prev.bar.close) prev.upperband
    then pymin bu prev.upperband else bu
  let lb := if pyLe prev.lowerband (some prev.bar.close)
    then pymax bl prev.lowerband else bl
  let dir : ℤ :=
    if pyLt prev.upperband (some b.close) then 1
    else if pyLt (some b.close) prev.lowerband then -1
    else prev.direction
  let st := if dir = 1 then lb else ub
  ⟨b, a, ub, lb, st, dir⟩

/-- The forward scan of `calculate_supertrend` over the rows after the first,
carrying the previous finished row. -/
def stScanAux (multiplier : ℚ) (prev : STRow) : List (Bar × Option ℚ) → List STRow
  | [] => []
  | p :: rest =>
    stStep multiplier prev p.1 p.2 ::
      stScanAux multiplier (stStep multiplier prev p.1 p.2) rest

/-- `calculate_supertrend(df, period, multiplier, atr_column)` from
`src/indicators/supertrend.py`.  `atrPre = some col` models a DataFrame that
already has the ATR column with values `col`; `atrPre = none` models the
branch that first calls `calculate_atr(df, period)`. -/
def calculate_supertrend (df : List Bar) (period : ℕ) (multiplier : ℚ)
    (atrPre : Option (List (Option ℚ))) : List STRow :=
  let atrs := atrPre.getD ((calculate_atr df period).map ATRRow.atr)
  match df.zip atrs with
  | [] => []
  | p :: rest =>
    stInit multiplier p.1 p.2 ::
      stScanAux multiplier (stInit multiplier p.1 p.2) rest

/-- Row accessor for a SuperTrend result. -/
def rowAt (rs : List STRow) (i : ℕ) : STRow := rs.getD i default

/-- Adjusted upper band value at index `i` (0 when NaN). -/
def ubAt (rs : List STRow) (i : ℕ) : ℚ := (rowAt rs i).upperband.getD 0

/-- Adjusted lower band value at index `i` (0 when NaN). -/
def lbAt (rs : List STRow) (i : ℕ) : ℚ := (rowAt rs i).lowerband.getD 0

/-- SuperTrend line value at index `i` (0 when NaN). -/
def stAt (rs : List STRow) (i : ℕ) : ℚ := (rowAt rs i).supertrend.getD 0

/-- SuperTrend direction at index `i`. -/
def dirAt (rs : List STRow) (i : ℕ) : ℤ := (rowAt rs i).direction

theorem pymin_some (a b : ℚ) : pymin (some a) (some b) = some (min a b) := by
  rcases lt_or_le b a with h | h
  · simp [pymin, h, min_eq_right h.le]
  · simp [pymin, not_lt.mpr h, min_eq_left h]

theorem pymax_some (a b : ℚ) : pymax (some a) (some b) = some (max a b) := by
  rcases lt_or_le a b with h | h
  · simp [pymax, h, max_eq_right h.le]
  · simp [pymax, not_lt.mpr h, max_eq_left h]

theorem stScanAux_length (m : ℚ) (prev : STRow) (l : List (Bar × Option ℚ)) :
    (stScanAux m prev l).length = l.length := by
  induction l generalizing prev with
  | nil => rfl
  | cons p rest ih => simp [stScanAux, ih]

theorem stScanAux_getD_succ (m : ℚ) (l : List (Bar × Option ℚ)) :
    ∀ (prev : STRow) (i : ℕ), i < l.length →
      (prev :: stScanAux m prev l).getD (i + 1) default =
        stStep m ((prev :: stScanAux m prev l).getD i default)
          (l.getD i default).1 (l.getD i default).2 := by
  induction l with
  | nil => intro prev i hi; cases hi
  | cons p rest ih =>
    intro prev i hi
    match i with
    | 0 => rfl
    | j + 1 =>
      have hj : j < rest.length := by simpa using hi
      simpa [stScanAux] using ih (stStep m prev p.1 p.2) j hj

theorem stScanAux_map_bar (m : ℚ) (prev : STRow) (l : List (Bar × Option ℚ)) :
    (stScanAux m prev l).map STRow.bar = l.map Prod.fst := by
  induction l generalizing prev with
  | nil => rfl
  | cons p rest ih => simp [stScanAux, stStep, ih]

theorem stScanAux_bands_isSome (m : ℚ) (l : List (Bar × Option ℚ))
    (hl : ∀ p ∈ l, p.2.isSome) :
    ∀ (prev : STRow), prev.upperband.isSome → prev.lowerband.isSome →
    ∀ r ∈ stScanAux m prev l, r.upperband.isSome ∧ r.lowerband.isSome := by
  induction l with
  | nil => intro prev _ _ r hr; cases hr
  | cons p rest ih =>
    intro prev hu hl2 r hr
    obtain ⟨a, ha⟩ := Option.isSome_iff_exists.mp (hl p (List.mem_cons_self p rest))
    obtain ⟨u, hu2⟩ := Option.isSome_iff_exists.mp hu
    obtain ⟨w, hw2⟩ := Option.isSome_iff_exists.mp hl2
    have hcuru : (stStep m prev p.1 p.2).upperband.isSome := by
      simp only [stStep, basicUpper, ha, hu2, Option.map_some]
      by_cases hc : pyLe (some prev.bar.close) (some u)
      · simp [hc, pymin_some]
      · simp [hc]
    have hcurl : (stStep m prev p.1 p.2).lowerband.isSome := by
      simp only [stStep, basicLower, ha, hw2, Option.map_some]
      by_cases hc : pyLe (some w) (some prev.bar.close)
      · simp [hc, pymax_some]
      · simp [hc]
    rcases List.mem_cons.mp hr with hr0 | hrrest
    · subst hr0; exact ⟨hcuru, hcurl⟩
    · exact ih (fun q hq => hl q (List.mem_cons_of_mem _ hq)) _ hcuru hcurl r hrrest

theorem stScanAux_getD_bar (m : ℚ) (l : List (Bar × Option ℚ)) :
    ∀ (prev : STRow) (i : ℕ), i < l.length →
      ((stScanAux m prev l).getD i default).bar = (l.getD i default).1 := by
  induction l with
  | nil => intro prev i hi; cases hi
  | cons p rest ih =>
    intro prev i hi
    match i with
    | 0 => rfl
    | j + 1 =>
      have hj : j < rest.length := by simpa using hi
      simpa [stScanAux] using ih (stStep m prev p.1 p.2) j hj

theorem pyLe_some (x y : ℚ) : pyLe (some x) (some y) = decide (x ≤ y) := rfl

theorem pyLt_some (x y : ℚ) : pyLt (some x) (some y) = decide (x < y) := rfl

theorem basicUpper_some (m : ℚ) (b : Bar) (a : ℚ) :
    basicUpper m b (some a) = some (basicUpperQ m b a) := rfl

theorem basicLower_some (m : ℚ) (b : Bar) (a : ℚ) :
    basicLower m b (some a) = some (basicLowerQ m b a) := rfl

/-- Claim C1: for every bar sequence with at least one bar and a fully
defined ATR column, the SuperTrend computation of
`src/indicators/supertrend.py` is a forward scan satisfying the recurrence:
the adjusted upper band at `i ≥ 1` is `min(basicUpper i, upperBand (i-1))`
when `close (i-1) ≤ upperBand (i-1)` and `basicUpper i` otherwise (dually for
the lower band); the direction at `i` is `1` when `close i` exceeds the
previous adjusted upper band, `-1` when it is below the previous adjusted
lower band, and is carried forward otherwise; the line at `i` is the lower
band when the direction is `1` and the upper band otherwise; and the
direction at the first bar is `1`. -/
theorem supertrend_forward_scan_recurrence (df : List Bar) (period : ℕ)
    (multiplier : ℚ) (atrs : List ℚ) (hlen : atrs.length = df.length)
    (hne : df ≠ []) :
    (calculate_supertrend df period multiplier (some (atrs.map some))).length
      = df.length ∧
    dirAt (calculate_supertrend df period multiplier (some (atrs.map some))) 0 = 1 ∧
    ∀ i, i + 1 < df.length →
      (ubAt (calculate_supertrend df period multiplier (some (atrs.map some))) (i + 1) =
        if (df.getD i default).close ≤
            ubAt (calculate_supertrend df period multiplier (some (atrs.map some))) i
        then min (basicUpperQ multiplier (df.getD (i + 1) default) (atrs.getD (i + 1) 0))
          (ubAt (calculate_supertrend df period multiplier (some (atrs.map some))) i)
        else basicUpperQ multiplier (df.getD (i + 1) default) (atrs.getD (i + 1) 0)) ∧
      (lbAt (calculate_supertrend df period multiplier (some (atrs.map some))) (i + 1) =
        if lbAt (calculate_supertrend df period multiplier (some (atrs.map some))) i ≤
            (df.getD i default).close
        then max (basicLowerQ multiplier (df.getD (i + 1) default) (atrs.getD (i + 1) 0))
          (lbAt (calculate_supertrend df period multiplier (some (atrs.map some))) i)
        else basicLowerQ multiplier (df.getD (i + 1) default) (atrs.getD (i + 1) 0)) ∧
      (dirAt (calculate_supertrend df period multiplier (some (atrs.map some))) (i + 1) =
        if ubAt (calculate_supertrend df period multiplier (some (atrs.map some))) i <
            (df.getD (i + 1) default).close then 1
        else if (df.getD (i + 1) default).close <
            lbAt (calculate_supertrend df period multiplier (some (atrs.map some))) i then -1
        else dirAt (calculate_supertrend df period multiplier (some (atrs.map some))) i) ∧
      (stAt (calculate_supertrend df period multiplier (some (atrs.map some))) (i + 1) =
        if dirAt (calculate_supertrend df period multiplier (some (atrs.map some))) (i + 1) = 1
        then lbAt (calculate_supertrend df period multiplier (some (atrs.map some))) (i + 1)
        else ubAt (calculate_supertrend df period multiplier (some (atrs.map some))) (i + 1)) := by
  set out := calculate_supertrend df period multiplier (some (atrs.map some)) with hdef
  have hcollen : (atrs.map some).length = df.length := by simpa using hlen
  have hpairslen : (df.zip (atrs.map some)).length = df.length := by
    rw [List.length_zip, hcollen, min_self]
  obtain ⟨p, rest, hpr⟩ : ∃ p rest, df.zip (atrs.map some) = p :: rest := by
    cases hz : df.zip (atrs.map some) with
    | nil =>
      exfalso
      apply hne
      rw [hz] at hpairslen
      exact List.length_eq_zero.mp hpairslen.symm
    | cons p rest => exact ⟨p, rest, rfl⟩
  have hout : out = stInit multiplier p.1 p.2 ::
      stScanAux multiplier (stInit multiplier p.1 p.2) rest := by
    rw [hdef]
    unfold calculate_supertrend
    simp only [Option.getD_some]
    rw [hpr]
  have hrestlen : rest.length + 1 = df.length := by
    have h1 : (p :: rest).length = df.length := by rw [← hpr]; exact hpairslen
    simpa using h1
  have hOlen : out.length = df.length := by
    rw [hout]
    simp only [List.length_cons, stScanAux_length]
    exact hrestlen
  have hpairs_getD : ∀ k, k < df.length →
      (df.zip (atrs.map some)).getD k default =
        (df.getD k default, some (atrs.getD k 0)) := by
    intro k hk
    have hk2 : k < (df.zip (atrs.map some)).length := by rw [hpairslen]; exact hk
    have hk3 : k < atrs.length := by rw [hlen]; exact hk
    rw [List.getD_eq_getElem _ _ hk2, List.getElem_zip,
      List.getD_eq_getElem _ _ hk, List.getD_eq_getElem _ _ hk3, List.getElem_map]
  have hsnd : ∀ q ∈ df.zip (atrs.map some), q.2.isSome := by
    intro q hq
    have h2 : q.2 ∈ atrs.map some := (List.of_mem_zip hq).2
    obtain ⟨x, _, hx⟩ := List.mem_map.mp h2
    rw [← hx]
    rfl
  have hp2 : p.2.isSome := hsnd p (by rw [hpr]; exact List.mem_cons_self p rest)
  obtain ⟨pa, hpa⟩ := Option.isSome_iff_exists.mp hp2
  have hr0u : (stInit multiplier p.1 p.2).upperband.isSome := by
    simp [stInit, basicUpper, hpa]
  have hr0l : (stInit multiplier p.1 p.2).lowerband.isSome := by
    simp [stInit, basicLower, hpa]
  have hsome : ∀ r ∈ out, r.upperband.isSome ∧ r.lowerband.isSome := by
    intro r hr
    rw [hout] at hr
    rcases List.mem_cons.mp hr with hr0 | hrrest
    · rw [hr0]; exact ⟨hr0u, hr0l⟩
    · exact stScanAux_bands_isSome multiplier rest
        (fun q hq => hsnd q (by rw [hpr]; exact List.mem_cons_of_mem _ hq))
        _ hr0u hr0l r hrrest
  have hrow_mem : ∀ i, i < df.length → rowAt out i ∈ out := by
    intro i hi
    have hiO : i < out.length := by rw [hOlen]; exact hi
    rw [rowAt, List.getD_eq_getElem _ _ hiO]
    exact List.getElem_mem hiO
  have hbar : ∀ i, i < df.length → (rowAt out i).bar = df.getD i default := by
    intro i hi
    rw [hout]
    match i with
    | 0 =>
      show (stInit multiplier p.1 p.2).bar = df.getD 0 default
      have h0 : (df.zip (atrs.map some)).getD 0 default =
          (df.getD 0 default, some (atrs.getD 0 0)) := hpairs_getD 0 hi
      rw [hpr] at h0
      have : p = (df.getD 0 default, some (atrs.getD 0 0)) := h0
      rw [show (stInit multiplier p.1 p.2).bar = p.1 from rfl, this]
    | j + 1 =>
      have hj : j < rest.length := by omega
      show ((stInit multiplier p.1 p.2 ::
        stScanAux multiplier (stInit multiplier p.1 p.2) rest).getD (j + 1) default).bar = _
      have h1 : (stInit multiplier p.1 p.2 ::
          stScanAux multiplier (stInit multiplier p.1 p.2) rest).getD (j + 1) default =
          (stScanAux multiplier (stInit multiplier p.1 p.2) rest).getD j default := rfl
      rw [h1, stScanAux_getD_bar multiplier rest _ j hj]
      have h2 : (df.zip (atrs.map some)).getD (j + 1) default =
          (df.getD (j + 1) default, some (atrs.getD (j + 1) 0)) := hpairs_getD (j + 1) hi
      rw [hpr] at h2
      have h3 : (p :: rest).getD (j + 1) default = rest.getD j default := rfl
      rw [← h3, h2]
  have hstep : ∀ i, i + 1 < df.length →
      rowAt out (i + 1) = stStep multiplier (rowAt out i)
        (df.getD (i + 1) default) (some (atrs.getD (i + 1) 0)) := by
    intro i hi1
    have hirest : i < rest.length := by omega
    have h1 := stScanAux_getD_succ multiplier rest (stInit multiplier p.1 p.2) i hirest
    have h2 : (df.zip (atrs.map some)).getD (i + 1) default =
        (df.getD (i + 1) default, some (atrs.getD (i + 1) 0)) := hpairs_getD (i + 1) hi1
    rw [hpr] at h2
    have h3 : (p :: rest).getD (i + 1) default = rest.getD i default := rfl
    rw [← h3, h2] at h1
    rw [rowAt, rowAt, hout]
    exact h1
  refine ⟨hOlen, by rw [dirAt, rowAt, hout]; rfl, fun i hi1 => ?_⟩
  have hi0 : i < df.length := by omega
  obtain ⟨u, hu⟩ := Option.isSome_iff_exists.mp (hsome _ (hrow_mem i hi0)).1
  obtain ⟨w, hw⟩ := Option.isSome_iff_exists.mp (hsome _ (hrow_mem i hi0)).2
  have hclose : (rowAt out i).bar.close = (df.getD i default).close := by
    rw [hbar i hi0]
  have hubi : ubAt out i = u := by rw [ubAt, hu]; rfl
  have hlbi : lbAt out i = w := by rw [lbAt, hw]; rfl
  set b := df.getD (i + 1) default with hbdef
  set a := atrs.getD (i + 1) 0 with hadef
  set prev := rowAt out i with hprevdef
  have hstepi := hstep i hi1
  have hub : (stStep multiplier prev b (some a)).upperband =
      some (if (df.getD i default).close ≤ u
        then min (basicUpperQ multiplier b a) u else basicUpperQ multiplier b a) := by
    simp only [stStep, basicUpper_some, hu, hclose, pyLe_some, decide_eq_true_eq]
    by_cases hc : (df.getD i default).close ≤ u
    · rw [if_pos hc, if_pos hc, pymin_some]
    · rw [if_neg hc, if_neg hc]
  have hlb : (stStep multiplier prev b (some a)).lowerband =
      some (if w ≤ (df.getD i default).close
        then max (basicLowerQ multiplier b a) w else basicLowerQ multiplier b a) := by
    simp only [stStep, basicLower_some, hw, hclose, pyLe_some, decide_eq_true_eq]
    by_cases hc : w ≤ (df.getD i default).close
    · rw [if_pos hc, if_pos hc, pymax_some]
    · rw [if_neg hc, if_neg hc]
  have hdir : (stStep multiplier prev b (some a)).direction =
      if u < b.close then 1 else if b.close < w then -1 else prev.direction := by
    simp only [stStep, hu, hw, pyLt_some, decide_eq_true_eq]
  have hst : (stStep multiplier prev b (some a)).supertrend =
      if (stStep multiplier prev b (some a)).direction = 1
      then (stStep multiplier prev b (some a)).lowerband
      else (stStep multiplier prev b (some a)).upperband := rfl
  refine ⟨?_, ?_, ?_, ?_⟩
  · rw [hubi, ubAt, hstepi, hub, Option.getD_some]
  · rw [hlbi, lbAt, hstepi, hlb, Option.getD_some]
  · rw [hubi, hlbi, dirAt, dirAt, hstepi, hdir]
  · rw [stAt, dirAt, lbAt, ubAt, hstepi]
    by_cases hd : (stStep multiplier prev b (some a)).direction = 1
    · rw [hst, if_pos hd, if_pos hd]
    · rw [hst, if_neg hd, if_neg hd]

/-- Witness for C1: a concrete two-bar frame with a defined ATR column;
the initial direction is 1 and the direction recurrence holds at index 1. -/
theorem supertrend_forward_scan_recurrence_witness :
    dirAt (calculate_supertrend [⟨3, 1, 2, 10⟩, ⟨4, 2, 3, 10⟩] 10 3
      (some ([(1 : ℚ), 1].map some))) 0 = 1 ∧
    dirAt (calculate_supertrend [⟨3, 1, 2, 10⟩, ⟨4, 2, 3, 10⟩] 10 3
      (some ([(1 : ℚ), 1].map some))) 1 =
      (if ubAt (calculate_supertrend [⟨3, 1, 2, 10⟩, ⟨4, 2, 3, 10⟩] 10 3
          (some ([(1 : ℚ), 1].map some))) 0 <
          (([⟨3, 1, 2, 10⟩, ⟨4, 2, 3, 10⟩] : List Bar).getD 1 default).close then 1
      else if (([⟨3, 1, 2, 10⟩, ⟨4, 2, 3, 10⟩] : List Bar).getD 1 default).close <
          lbAt (calculate_supertrend [⟨3, 1, 2, 10⟩, ⟨4, 2, 3, 10⟩] 10 3
            (some ([(1 : ℚ), 1].map some))) 0 then -1
      else dirAt (calculate_supertrend [⟨3, 1, 2, 10⟩, ⟨4, 2, 3, 10⟩] 10 3
          (some ([(1 : ℚ), 1].map some))) 0) := by
  have h := supertrend_forward_scan_recurrence [⟨3, 1, 2, 10⟩, ⟨4, 2, 3, 10⟩] 10 3
    [1, 1] rfl (by decide)
  exact ⟨h.2.1, (h.2.2 0 (by decide)).2.2.1⟩

theorem calculate_supertrend_eq (df : List Bar) (period : ℕ) (m : ℚ)
    (atrPre : Option (List (Option ℚ))) :
    calculate_supertrend df period m atrPre =
      match df.zip (atrPre.getD ((calculate_atr df period).map ATRRow.atr)) with
      | [] => []
      | p :: rest => stInit m p.1 p.2 :: stScanAux m (stInit m p.1 p.2) rest := rfl

/-- Claim C10: both indicator entry points work on a copy and only add
columns: the original bar columns of the returned frame are exactly the
input bars, for `calculate_atr` and for `calculate_supertrend` (on either
ATR branch).  In this value-level embedding the list held by the caller is immutable,
which models the `df.copy()` discipline of the source. -/
theorem indicators_preserve_input_bars (df : List Bar) (period : ℕ)
    (multiplier : ℚ) (atrPre : Option (List (Option ℚ)))
    (hpre : ∀ l, atrPre = some l → l.length = df.length) :
    (calculate_atr df period).map ATRRow.bar = df ∧
    (calculate_supertrend df period multiplier atrPre).map STRow.bar = df := by
  have hatr : (calculate_atr df period).map ATRRow.bar = df := by
    rw [calculate_atr, List.map_map]
    have hc : (ATRRow.bar ∘ fun p : Bar × Option ℚ => (⟨p.1, p.2⟩ : ATRRow))
        = Prod.fst := rfl
    rw [hc]
    exact List.map_fst_zip df _ (by rw [length_rollingMean, length_trueRange])
  refine ⟨hatr, ?_⟩
  have hlen2 : (atrPre.getD ((calculate_atr df period).map ATRRow.atr)).length
      = df.length := by
    cases atrPre with
    | none => simp [length_calculate_atr]
    | some l => simpa using hpre l rfl
  have hziplen : (df.zip (atrPre.getD ((calculate_atr df period).map ATRRow.atr))).length
      = df.length := by
    rw [List.length_zip, hlen2, min_self]
  rw [calculate_supertrend_eq]
  cases hz : df.zip (atrPre.getD ((calculate_atr df period).map ATRRow.atr)) with
  | nil =>
    have hdf : df = [] := by
      rw [hz] at hziplen
      exact List.length_eq_zero.mp hziplen.symm
    simp [hdf]
  | cons p rest =>
    simp only [List.map_cons, stScanAux_map_bar]
    have h1 : (stInit multiplier p.1 p.2).bar = p.1 := rfl
    rw [h1, show (p.1 :: rest.map Prod.fst) = (p :: rest).map Prod.fst from rfl, ← hz]
    exact List.map_fst_zip df _ (by rw [hlen2])

/-- Witness for C10: a concrete one-bar frame, with the ATR computed by
`calculate_atr` (no precomputed column). -/
theorem indicators_preserve_input_bars_witness :
    (calculate_atr [⟨2, 1, 1, 1⟩] 1).map ATRRow.bar = [⟨2, 1, 1, 1⟩] ∧
    (calculate_supertrend [⟨2, 1, 1, 1⟩] 1 2 none).map STRow.bar = [⟨2, 1, 1, 1⟩] :=
  indicators_preserve_input_bars [⟨2, 1, 1, 1⟩] 1 2 none
    (fun _ h => Option.noConfusion h)

/-- Witness for C8: on a concrete two-bar frame with `period = 2`, the first
ATR output is undefined and the defined output at index 1 is nonnegative. -/
theorem atr_undefined_prefix_and_nonneg_witness :
    ((calculate_atr [⟨2, 1, 1, 5⟩, ⟨3, 1, 2, 5⟩] 2).getD 0 default).atr = none ∧
    ∀ v, ((calculate_atr [⟨2, 1, 1, 5⟩, ⟨3, 1, 2, 5⟩] 2).getD 1 default).atr = some v →
      0 ≤ v := by
  have h := atr_undefined_prefix_and_nonneg [⟨2, 1, 1, 5⟩, ⟨3, 1, 2, 5⟩] 2
    (by decide) (by decide)
  exact ⟨((h.2 0 (by decide)).1).mpr (by decide), (h.2 1 (by decide)).2.2⟩

end Indicators

namespace SuperTrendStrategy

open Indicators

/-- Per-bar true range as written inline in `_calculate_supertrend`
(`src/strategies/supertrend_strategy.py` lines 321-327), duplicating the
construction in the indicator module: `max` of `high - low`,
`|high - prev_close|`, `|low - prev_close|`, with the pandas row-wise `max`
skipping the NaN produced by `shift()` on the first bar. -/
def strategy_true_range (df : List Bar) : List ℚ :=
  (List.range df.length).map (fun i =>
    let b := df.getD i default
    match i with
    | 0 => b.high - b.low
    | j + 1 =>
      let pc := (df.getD j default).close
      max (b.high - b.low) (max |b.high - pc| |b.low - pc|))

/-- The first row of the strategy version of `_calculate_supertrend`: basic bands,
`supertrend` initialised to `0.0` and direction initialised to `1`. -/
def strategy_init (m : ℚ) (b : Bar) (a : Option ℚ) : STRow :=
  ⟨b, a, a.map (fun x => (b.high + b.low) / 2 + m * x),
    a.map (fun x => (b.high + b.low) / 2 - m * x), some 0, 1⟩

/-- One iteration of the loop in `_calculate_supertrend`
(`src/strategies/supertrend_strategy.py` lines 338-358): the band guards
compare the previous close against the previous (already updated) band, the
band update takes `min`/`max` of the current basic band and the previous
band, and the direction compares the current close against the previous
bands. -/
def strategy_step (m : ℚ) (prev : STRow) (b : Bar) (a : Option ℚ) : STRow :=
  let bu := a.map (fun x => (b.high + b.low) / 2 + m * x)
  let bl := a.map (fun x => (b.high + b.low) / 2 - m * x)
  let ub := if pyLe (some prev.bar.close) prev.upperband
    then pymin bu prev.upperband else bu
  let lb := if pyLe prev.lowerband (some prev.bar.close)
    then pymax bl prev.lowerband else bl
  let dir : ℤ :=
    if pyLt prev.upperband (some b.close) then 1
    else if pyLt (some b.close) prev.lowerband then -1
    else prev.direction
  let st := if dir = 1 then lb else ub
  ⟨b, a, ub, lb, st, dir⟩

/-- The forward scan of the strategy version of `_calculate_supertrend`. -/
def strategy_scan (m : ℚ) (prev : STRow) : List (Bar × Option ℚ) → List STRow
  | [] => []
  | p :: rest =>
    strategy_step m prev p.1 p.2 ::
      strategy_scan m (strategy_step m prev p.1 p.2) rest

/-- `SuperTrendStrategy._calculate_supertrend(df)` from
`src/strategies/supertrend_strategy.py`: computes the ATR inline when the
`atr` column is absent (`atrPre = none`), then runs the duplicated band
recurrence.  `period` and `multiplier` stand for `self.period` and
`self.multiplier`. -/
def strategy_calculate_supertrend (df : List Bar) (period : ℕ) (multiplier : ℚ)
    (atrPre : Option (List (Option ℚ))) : List STRow :=
  let atrs := atrPre.getD (rollingMean period (strategy_true_range df))
  match df.zip atrs with
  | [] => []
  | p :: rest =>
    strategy_init multiplier p.1 p.2 ::
      strategy_scan multiplier (strategy_init multiplier p.1 p.2) rest

theorem strategy_true_range_eq : strategy_true_range = trueRange := rfl

theorem strategy_init_eq (m : ℚ) (b : Bar) (a : Option ℚ) :
    strategy_init m b a = stInit m b a := rfl

theorem strategy_step_eq (m : ℚ) (prev : STRow) (b : Bar) (a : Option ℚ) :
    strategy_step m prev b a = stStep m prev b a := rfl

theorem strategy_scan_eq (m : ℚ) (l : List (Bar × Option ℚ)) :
    ∀ prev, strategy_scan m prev l = stScanAux m prev l := by
  induction l with
  | nil => intro prev; rfl
  | cons p rest ih =>
    intro prev
    show strategy_step m prev p.1 p.2 ::
        strategy_scan m (strategy_step m prev p.1 p.2) rest = _
    rw [strategy_step_eq, ih, stScanAux]

theorem calculate_atr_map_atr (df : List Bar) (period : ℕ) :
    (calculate_atr df period).map ATRRow.atr = rollingMean period (trueRange df) := by
  rw [calculate_atr, List.map_map]
  have hc : (ATRRow.atr ∘ fun p : Bar × Option ℚ => (⟨p.1, p.2⟩ : ATRRow))
      = Prod.snd := rfl
  rw [hc]
  exact List.map_snd_zip df _ (by rw [length_rollingMean, length_trueRange])

theorem strategy_calculate_supertrend_eq_def (df : List Bar) (period : ℕ)
    (m : ℚ) (atrPre : Option (List (Option ℚ))) :
    strategy_calculate_supertrend df period m atrPre =
      match df.zip (atrPre.getD (rollingMean period (strategy_true_range df))) with
      | [] => []
      | p :: rest =>
        strategy_init m p.1 p.2 :: strategy_scan m (strategy_init m p.1 p.2) rest := rfl

/-- Claim C5: fed a bar sequence with no precomputed `atr` or `supertrend`
columns, the indicator module function `calculate_supertrend` and the strategy
duplicated `_calculate_supertrend` produce the same SuperTrend line value and
the same direction value at every index, for every `(period, multiplier)`
pair — tie conditions included, since the two recurrences agree pointwise. -/
theorem supertrend_duplicate_recurrences_agree (df : List Bar) (period : ℕ)
    (multiplier : ℚ) :
    ∀ i : ℕ,
      stAt (strategy_calculate_supertrend df period multiplier none) i =
        stAt (calculate_supertrend df period multiplier none) i ∧
      dirAt (strategy_calculate_supertrend df period multiplier none) i =
        dirAt (calculate_supertrend df period multiplier none) i := by
  have heq : strategy_calculate_supertrend df period multiplier none =
      calculate_supertrend df period multiplier none := by
    rw [strategy_calculate_supertrend_eq_def, calculate_supertrend_eq,
      calculate_atr_map_atr, strategy_true_range_eq]
    cases df.zip ((none : Option (List (Option ℚ))).getD
        (rollingMean period (trueRange df))) with
    | nil => rfl
    | cons p rest =>
      show strategy_init multiplier p.1 p.2 ::
          strategy_scan multiplier (strategy_init multiplier p.1 p.2) rest = _
      rw [strategy_init_eq, strategy_scan_eq]
  intro i
  rw [heq]
  exact ⟨rfl, rfl⟩

end SuperTrendStrategy

/-- One row of an indicator-enriched DataFrame as produced by the engine method
`_add_indicators`: the OHLCV columns plus the optional indicator columns
strategies read.  A `none` field models an absent value. -/
structure Row where
  high : ℚ
  low : ℚ
  close : ℚ
  volume : ℚ
  supertrend : Option ℚ
  supertrend_direction : Option ℚ
  atr : Option ℚ
  rsi_14 : Option ℚ
  macd_line : Option ℚ
  macd_signal : Option ℚ
  bb_lower : Option ℚ
  bb_upper : Option ℚ
  ema200 : Option ℚ
  chandelier_exit : Option ℚ
  deriving Repr, DecidableEq, Inhabited

/-- Python truthiness of an optional float: `None` and `0.0` are falsy. -/
def pyTruthy (x : Option ℚ) : Bool :=
  match x with
  | none => false
  | some v => decide (v ≠ 0)

namespace BaseStrategy

/-- `BaseStrategy.get_stop_loss` from `src/strategies/base.py`:
`entry - atr * mult` for longs.  `stop_loss_atr_mult` stands for the
`stop_loss_atr_mult` configuration entry (default 2.5). -/
def get_stop_loss (stop_loss_atr_mult : ℚ) (entry_price atr : ℚ)
    (direction : String) : ℚ :=
  if direction = "long" then entry_price - atr * stop_loss_atr_mult
  else entry_price + atr * stop_loss_atr_mult

/-- `BaseStrategy.get_take_profit` from `src/strategies/base.py`. -/
def get_take_profit (profit_target_pct : ℚ) (entry_price : ℚ)
    (direction : String) : ℚ :=
  if direction = "long" then entry_price * (1 + profit_target_pct)
  else entry_price * (1 - profit_target_pct)

/-- The last value of `Series.ewm(span, adjust=False).mean()`:
`y0 = x0`, `y(i) = (1 - alpha) * y(i-1) + alpha * x(i)` (0 on an empty
series, which callers guard against). -/
def ewm_last (alpha : ℚ) : List ℚ → ℚ
  | [] => 0
  | x :: xs => xs.foldl (fun y z => (1 - alpha) * y + alpha * z) x

/-- `BaseStrategy.check_daily_trend` from `src/strategies/base.py`: requires
at least 200 daily rows, then compares the last close against the `ema200`
column, falling back to an `ewm(span=200, adjust=False)` mean of the closes. -/
def check_daily_trend (daily_data : List Row) : Bool :=
  if daily_data.isEmpty ∨ daily_data.length < 200 then false
  else
    let latest := daily_data.getLastD default
    match latest.ema200 with
    | some e => decide (e < latest.close)
    | none => decide (ewm_last (2 / 201) (daily_data.map Row.close) < latest.close)

/-- `BaseStrategy.check_volume_confirmation` from `src/strategies/base.py`:
vacuously true with fewer than 20 rows, else the last volume must reach
`threshold` times the 20-row rolling average (its last value). -/
def check_volume_confirmation (data : List Row) (threshold : ℚ) : Bool :=
  if data.length < 20 then true
  else
    let avg_volume := (((data.map Row.volume).drop (data.length - 20)).sum) / 20
    let current_volume := (data.getLastD default).volume
    decide (avg_volume * threshold ≤ current_volume)

end BaseStrategy

namespace SuperTrendStrategy

/-- The `SuperTrendStrategy` configuration attributes set in `__init__`,
plus the two engine-injected sizing entries of the config dict. -/
structure STConfig where
  period : ℕ
  multiplier : ℚ
  volume_confirmation : Bool
  volume_threshold : ℚ
  daily_trend_filter : Bool
  profit_target_pct : ℚ
  stop_loss_atr_mult : ℚ
  trailing_stop_enabled : Bool
  trailing_stop_activation : ℚ
  risk_per_trade : ℚ
  max_position_size : ℚ
  deriving Repr, DecidableEq, Inhabited

/-- The default values of `SuperTrendStrategy.__init__` and of the
`config.get` calls in `calculate_position_size`. -/
def defaultConfig : STConfig :=
  ⟨10, 3, true, 1.2, true, 0.10, 2.5, true, 0.05, 0.01, 0.20⟩

/-- Non-strict pandas `Series.is_monotonic_increasing`. -/
def monotonicIncreasing : List ℚ → Bool
  | [] => true
  | [_] => true
  | a :: b :: rest => decide (a ≤ b) && monotonicIncreasing (b :: rest)

/-- `SuperTrendStrategy._calculate_confidence` from
`src/strategies/supertrend_strategy.py` lines 155-191: 0.5 base, +0.1 for a
SuperTrend distance above 1%, +0.15 for volume confirmation, +0.15/+0.10
for the RSI band, +0.1 for five non-decreasing closes, clamped to 1. -/
def calculate_confidence (cfg : STConfig) (latest : Row) (data : List Row) : ℚ :=
  let c1 : ℚ := 0.5
  let c2 := c1 + (match latest.supertrend with
    | some st =>
      if 0 < st then (if 0.01 < (latest.close - st) / st then 0.1 else 0) else 0
    | none => 0)
  let c3 := c2 +
    (if BaseStrategy.check_volume_confirmation data cfg.volume_threshold
      then 0.15 else 0)
  let c4 := c3 + (match latest.rsi_14 with
    | some rsi =>
      if 40 ≤ rsi ∧ rsi ≤ 60 then 0.15
      else if 30 ≤ rsi ∧ rsi ≤ 70 then 0.10 else 0
    | none => 0)
  let c5 := c4 +
    (if 5 ≤ data.length ∧
        monotonicIncreasing ((data.map Row.close).drop (data.length - 5))
      then 0.10 else 0)
  min c5 1

/-- `SuperTrendStrategy.calculate_position_size` from
`src/strategies/supertrend_strategy.py` lines 193-232.  Python `int(...)`
truncates toward zero (`pyint`). -/
def calculate_position_size (cfg : STConfig) (symbol : String)
    (price atr available_capital : ℚ) : ℤ :=
  if atr ≤ 0 ∨ price ≤ 0 then 0
  else
    let risk_amount := available_capital * cfg.risk_per_trade
    let stop_loss_distance := atr * cfg.stop_loss_atr_mult
    let qty : ℤ :=
      if 0 < stop_loss_distance then pyint (risk_amount / stop_loss_distance) else 0
    let max_qty : ℤ := pyint (available_capital * cfg.max_position_size / price)
    min qty max_qty

/-- An open position as recorded by the engine
(`src/core/engine.py` lines 337-346). -/
structure Position where
  symbol : String
  qty : ℤ
  entry_price : ℚ
  strategy : String
  stop_loss_price : Option ℚ
  take_profit_price : Option ℚ
  deriving Repr, DecidableEq, Inhabited

/-- `SuperTrendStrategy._calculate_trailing_stop` from
`src/strategies/supertrend_strategy.py` lines 292-306: the current
SuperTrend line when present, else `entry + atr * mult * 0.5` when the ATR
is positive, else the recorded stop-loss price. -/
def calculate_trailing_stop (cfg : STConfig) (position : Position)
    (current_data : Row) : Option ℚ :=
  match current_data.supertrend with
  | some st => some st
  | none =>
    let atr := current_data.atr.getD 0
    if 0 < atr then
      some (position.entry_price + atr * cfg.stop_loss_atr_mult * 0.5)
    else position.stop_loss_price

/-- `SuperTrendStrategy.should_exit` from
`src/strategies/supertrend_strategy.py` lines 234-290.  The formatted price
suffixes of the reason strings are omitted. -/
def should_exit (cfg : STConfig) (position : Position) (current_data : Row) :
    Bool × String :=
  let entry_price := position.entry_price
  let current_price := current_data.close
  if entry_price ≤ 0 ∨ current_price ≤ 0 then (false, "")
  else
    let pnl_pct := (current_price - entry_price) / entry_price
    if (match current_data.supertrend_direction with
        | some d => decide (d ≤ 0)
        | none => false) then
      (true, "SuperTrend turned bearish")
    else if (match current_data.supertrend with
        | some st => decide (current_price < st)
        | none => false) then
      (true, "Price below SuperTrend line")
    else if pyTruthy position.stop_loss_price &&
        pyLe (some current_price) position.stop_loss_price then
      (true, "Stop loss hit")
    else if pyTruthy position.take_profit_price &&
        pyLe position.take_profit_price (some current_price) then
      (true, "Profit target reached")
    else if cfg.trailing_stop_enabled &&
        decide (cfg.trailing_stop_activation ≤ pnl_pct) &&
        pyTruthy (calculate_trailing_stop cfg position current_data) &&
        pyLe (some current_price) (calculate_trailing_stop cfg position current_data)
      then (true, "Trailing stop hit")
    else (false, "")

/-- Claim C9: a BUY setup with SuperTrend distance above 1%, confirmed
volume, RSI exactly 50 and five monotonically non-decreasing closes earns
every boost, and the confidence is exactly
`0.5 + 0.1 + 0.15 + 0.15 + 0.1 = 1`. -/
theorem confidence_all_boosts_is_one (cfg : STConfig) (latest : Row)
    (data : List Row) (st : ℚ) (hst : latest.supertrend = some st)
    (hstpos : 0 < st) (hdist : (0.01 : ℚ) < (latest.close - st) / st)
    (hvol : BaseStrategy.check_volume_confirmation data cfg.volume_threshold = true)
    (hrsi : latest.rsi_14 = some 50) (hlen : 5 ≤ data.length)
    (hmono : monotonicIncreasing ((data.map Row.close).drop (data.length - 5)) = true) :
    calculate_confidence cfg latest data = 1 := by
  simp only [calculate_confidence, hst, hrsi]
  rw [if_pos hstpos, if_pos hdist, if_pos hvol,
    if_pos (show (40 : ℚ) ≤ 50 ∧ (50 : ℚ) ≤ 60 from by norm_num),
    if_pos ⟨hlen, hmono⟩]
  norm_num

/-- Witness for C9: a concrete five-row frame with rising closes and a
latest row carrying SuperTrend 1, close 5 and RSI 50. -/
theorem confidence_all_boosts_is_one_witness :
    calculate_confidence defaultConfig
      { (default : Row) with close := 5, supertrend := some 1, rsi_14 := some 50 }
      [{ (default : Row) with close := 1 }, { (default : Row) with close := 2 },
        { (default : Row) with close := 3 }, { (default : Row) with close := 4 },
        { (default : Row) with close := 5 }] = 1 :=
  confidence_all_boosts_is_one defaultConfig _ _ 1 rfl (by norm_num) (by norm_num)
    rfl rfl (by norm_num) (by decide)

theorem pyint_of_nonneg (q : ℚ) (hq : 0 ≤ q) : pyint q = ⌊q⌋ := by
  rw [pyint, if_neg (not_lt.mpr hq)]

theorem calculate_position_size_pos (cfg : STConfig) (symbol : String)
    (price atr available_capital : ℚ) (hatr : 0 < atr) (hprice : 0 < price)
    (hmult : 0 < cfg.stop_loss_atr_mult) :
    calculate_position_size cfg symbol price atr available_capital =
      min (pyint (available_capital * cfg.risk_per_trade /
            (atr * cfg.stop_loss_atr_mult)))
        (pyint (available_capital * cfg.max_position_size / price)) := by
  have hg : ¬ (atr ≤ 0 ∨ price ≤ 0) := by push_neg; exact ⟨hatr, hprice⟩
  simp only [calculate_position_size, if_neg hg, if_pos (mul_pos hatr hmult)]

/-- Claim C3 counterexample: with the default parameters and a negative
available capital, `calculate_position_size` returns `-1` — a negative share
count whose notional `-10` also exceeds
`max_position_size * available_capital = -19`.  (Python `int` truncates
toward zero, so both intermediate quantities are negative.) -/
theorem position_size_negative_capital_counterexample :
    calculate_position_size defaultConfig ("SYM") 10 1 (-95) = -1 ∧
    calculate_position_size defaultConfig ("SYM") 10 1 (-95) < 0 ∧
    ¬ ((calculate_position_size defaultConfig ("SYM") 10 1 (-95) : ℚ) * 10 ≤
        defaultConfig.max_position_size * (-95)) := by
  have h : calculate_position_size defaultConfig ("SYM") 10 1 (-95) = -1 := by
    rw [calculate_position_size_pos defaultConfig ("SYM") 10 1 (-95)
      (by norm_num) (by norm_num) (by norm_num [defaultConfig])]
    norm_num [defaultConfig, pyint]
  refine ⟨h, by rw [h]; norm_num, by rw [h]; norm_num [defaultConfig]⟩

/-- Claim C3 (amended to nonnegative available capital and sizing
parameters): `calculate_position_size` returns 0 when `atr ≤ 0` or
`price ≤ 0`; otherwise it returns
`floor(capital * risk / (atr * mult))` capped at
`floor(capital * max_fraction / price)`; the result is never negative and
its notional never exceeds `max_fraction * capital`. -/
theorem position_size_spec (cfg : STConfig) (symbol : String)
    (price atr available_capital : ℚ) (hcap : 0 ≤ available_capital)
    (hrisk : 0 ≤ cfg.risk_per_trade) (hmult : 0 < cfg.stop_loss_atr_mult)
    (hfrac : 0 ≤ cfg.max_position_size) :
    (atr ≤ 0 ∨ price ≤ 0 →
      calculate_position_size cfg symbol price atr available_capital = 0) ∧
    (0 < atr → 0 < price →
      calculate_position_size cfg symbol price atr available_capital =
        min ⌊available_capital * cfg.risk_per_trade / (atr * cfg.stop_loss_atr_mult)⌋
          ⌊available_capital * cfg.max_position_size / price⌋) ∧
    0 ≤ calculate_position_size cfg symbol price atr available_capital ∧
    (calculate_position_size cfg symbol price atr available_capital : ℚ) * price ≤
      cfg.max_position_size * available_capital := by
  by_cases hap : atr ≤ 0 ∨ price ≤ 0
  · have h0 : calculate_position_size cfg symbol price atr available_capital = 0 := by
      simp only [calculate_position_size, if_pos hap]
    refine ⟨fun _ => h0, fun h1 h2 => absurd hap (by push_neg; exact ⟨h1, h2⟩),
      by rw [h0], ?_⟩
    rw [h0]
    push_cast
    rcases hap with h | h
    · nlinarith [mul_nonneg hfrac hcap]
    · nlinarith [mul_nonneg hfrac hcap]
  · push_neg at hap
    obtain ⟨hatr, hprice⟩ := hap
    have hx : (0 : ℚ) ≤ available_capital * cfg.risk_per_trade /
        (atr * cfg.stop_loss_atr_mult) :=
      div_nonneg (mul_nonneg hcap hrisk) (mul_pos hatr hmult).le
    have hy : (0 : ℚ) ≤ available_capital * cfg.max_position_size / price :=
      div_nonneg (mul_nonneg hcap hfrac) hprice.le
    have hchar := calculate_position_size_pos cfg symbol price atr available_capital
      hatr hprice hmult
    rw [pyint_of_nonneg _ hx, pyint_of_nonneg _ hy] at hchar
    refine ⟨fun h => absurd h (by push_neg; exact ⟨hatr, hprice⟩),
      fun _ _ => hchar, ?_, ?_⟩
    · rw [hchar]
      exact le_min (Int.floor_nonneg.mpr hx) (Int.floor_nonneg.mpr hy)
    · rw [hchar]
      have h1 : ((min ⌊available_capital * cfg.risk_per_trade /
          (atr * cfg.stop_loss_atr_mult)⌋
            ⌊available_capital * cfg.max_position_size / price⌋ : ℤ) : ℚ) ≤
          available_capital * cfg.max_position_size / price := by
        calc ((min ⌊available_capital * cfg.risk_per_trade /
            (atr * cfg.stop_loss_atr_mult)⌋
              ⌊available_capital * cfg.max_position_size / price⌋ : ℤ) : ℚ)
            ≤ ((⌊available_capital * cfg.max_position_size / price⌋ : ℤ) : ℚ) :=
              Int.cast_le.mpr (min_le_right _ _)
          _ ≤ available_capital * cfg.max_position_size / price := Int.floor_le _
      calc ((min ⌊available_capital * cfg.risk_per_trade /
          (atr * cfg.stop_loss_atr_mult)⌋
            ⌊available_capital * cfg.max_position_size / price⌋ : ℤ) : ℚ) * price
          ≤ (available_capital * cfg.max_position_size / price) * price :=
            mul_le_mul_of_nonneg_right h1 hprice.le
        _ = cfg.max_position_size * available_capital := by
            field_simp
            ring

/-- Witness for C3 (amended): with 10000 of capital, price 100 and ATR 2
under the default parameters, the returned size is nonnegative and its
notional respects the 20% cap. -/
theorem position_size_spec_witness :
    0 ≤ calculate_position_size defaultConfig ("SYM") 100 2 10000 ∧
    (calculate_position_size defaultConfig ("SYM") 100 2 10000 : ℚ) * 100 ≤
      defaultConfig.max_position_size * 10000 :=
  (position_size_spec defaultConfig ("SYM") 100 2 10000 (by norm_num)
    (by norm_num [defaultConfig]) (by norm_num [defaultConfig])
    (by norm_num [defaultConfig])).2.2

/-- Claim C6: for a well-formed position/bar pair (positive entry price and
close, indicator fields present, nonzero recorded stop and target),
`should_exit` evaluates its conditions in the fixed order — direction ≤ 0,
close below the SuperTrend line, close ≤ stop-loss, close ≥ take-profit,
then the trailing stop, active only once the unrealized gain reaches the
activation threshold and with trailing level the current SuperTrend line —
returning the first hit and `(false, "")` otherwise; and when the SuperTrend
line is absent the trailing level falls back to
`entry + atr * stop_mult * 0.5` for a positive ATR. -/
theorem should_exit_order (cfg : STConfig) (position : Position)
    (current_data : Row) (d st sl tp : ℚ) (hentry : 0 < position.entry_price)
    (hclose : 0 < current_data.close)
    (hd : current_data.supertrend_direction = some d)
    (hst : current_data.supertrend = some st)
    (hsl : position.stop_loss_price = some sl) (hsl0 : sl ≠ 0)
    (htp : position.take_profit_price = some tp) (htp0 : tp ≠ 0) :
    (should_exit cfg position current_data =
      if d ≤ 0 then (true, "SuperTrend turned bearish")
      else if current_data.close < st then (true, "Price below SuperTrend line")
      else if current_data.close ≤ sl then (true, "Stop loss hit")
      else if tp ≤ current_data.close then (true, "Profit target reached")
      else if cfg.trailing_stop_enabled = true ∧
          cfg.trailing_stop_activation ≤
            (current_data.close - position.entry_price) / position.entry_price ∧
          current_data.close ≤ st then (true, "Trailing stop hit")
      else (false, "")) ∧
    (∀ (cur2 : Row) (a : ℚ), cur2.supertrend = none → cur2.atr = some a →
      0 < a → calculate_trailing_stop cfg position cur2 =
        some (position.entry_price + a * cfg.stop_loss_atr_mult * 0.5)) := by
  constructor
  · have hguard : ¬ (position.entry_price ≤ 0 ∨ current_data.close ≤ 0) := by
      push_neg; exact ⟨hentry, hclose⟩
    simp only [should_exit, calculate_trailing_stop, hd, hst, hsl, htp,
      pyTruthy, Indicators.pyLe_some, Bool.and_eq_true, decide_eq_true_eq,
      if_neg hguard]
    by_cases h1 : d ≤ 0
    · rw [if_pos h1, if_pos h1]
    · rw [if_neg h1, if_neg h1]
      by_cases h2 : current_data.close < st
      · rw [if_pos h2, if_pos h2]
      · rw [if_neg h2, if_neg h2]
        by_cases h3 : current_data.close ≤ sl
        · rw [if_pos ⟨hsl0, h3⟩, if_pos h3]
        · rw [if_neg (fun hc => h3 hc.2), if_neg h3]
          by_cases h4 : tp ≤ current_data.close
          · rw [if_pos ⟨htp0, h4⟩, if_pos h4]
          · rw [if_neg (fun hc => h4 hc.2), if_neg h4]
            by_cases h5 : cfg.trailing_stop_enabled = true ∧
                cfg.trailing_stop_activation ≤
                  (current_data.close - position.entry_price) /
                    position.entry_price ∧
                current_data.close ≤ st
            · have hstne : st ≠ 0 := ne_of_gt (lt_of_lt_of_le hclose h5.2.2)
              rw [if_pos ⟨⟨⟨h5.1, h5.2.1⟩, hstne⟩, h5.2.2⟩, if_pos h5]
            · rw [if_neg (fun hc => h5 ⟨hc.1.1.1, hc.1.1.2, hc.2⟩), if_neg h5]
  · intro cur2 a hnone ha hapos
    simp only [calculate_trailing_stop, hnone, ha, Option.getD_some, if_pos hapos]

/-- A concrete enriched bar used to witness the exit cascade. -/
def exitWitnessRow : Row :=
  { (default : Row) with
    close := 5
    supertrend := some 4
    supertrend_direction := some 1 }

/-- Witness for C6: a concrete position and bar where the first two
conditions fall through to the stop-loss exit. -/
theorem should_exit_order_witness :
    should_exit defaultConfig ⟨"X", 1, 10, "SuperTrend", some 6, some 20⟩
      exitWitnessRow = (true, "Stop loss hit") := by
  rw [(should_exit_order defaultConfig
    ⟨"X", 1, 10, "SuperTrend", some 6, some 20⟩
    exitWitnessRow 1 4 6 20 (by norm_num) (by norm_num [exitWitnessRow])
    rfl rfl rfl (by norm_num) rfl (by norm_num)).1]
  norm_num [exitWitnessRow]

/-- The literal reason string of `SuperTrendStrategy._create_buy_signal`
(`src/strategies/supertrend_strategy.py` line 148). -/
def buy_reason : String := "SuperTrend turned bullish"

end SuperTrendStrategy

/-- `SignalType` from `src/strategies/base.py`. -/
inductive SignalType where
  | BUY
  | SELL
  | HOLD
  | EXIT
  deriving Repr, DecidableEq, Inhabited

/-- The `Signal` dataclass from `src/strategies/base.py`.  The timestamp and
the indicator snapshot map are not modelled; the price, confidence, reason
and the stop/target/size fields are. -/
structure Signal where
  symbol : String
  signal_type : SignalType
  price : ℚ
  confidence : ℚ
  reason : String
  stop_loss : Option ℚ
  take_profit : Option ℚ
  position_size : Option ℤ
  deriving Repr, DecidableEq, Inhabited

namespace MacdRsiStrategy

/-- The `MacdRsiStrategy` configuration attributes set in `__init__`. -/
structure MacdConfig where
  rsi_min : ℚ
  rsi_max : ℚ
  macd_threshold : ℚ
  bb_filter : Bool
  daily_trend_filter : Bool
  profit_target_pct : ℚ
  stop_loss_atr_mult : ℚ
  risk_per_trade : ℚ
  max_position_size : ℚ
  deriving Repr, DecidableEq, Inhabited

/-- The default values of `MacdRsiStrategy.__init__`. -/
def macdDefaultConfig : MacdConfig :=
  ⟨40, 70, 0, true, true, 0.08, 2.8, 0.01, 0.20⟩

/-- A multi-timeframe bundle: the string-keyed dict of DataFrames handed to
`generate_signals`, with `none` for an absent key. -/
structure TFData where
  fifteen_min : Option (List Row)
  hourly : Option (List Row)
  daily : Option (List Row)
  primary : Option (List Row)
  deriving Repr, DecidableEq, Inhabited

/-- Python truthiness of an optional DataFrame: `None` is falsy, but pandas
refuses to convert a DataFrame to a boolean —
`bool(df)` raises `ValueError: The truth value of a DataFrame is
ambiguous`. -/
def pyBoolFrame (x : Option (List Row)) : Except String Bool :=
  match x with
  | none => .ok false
  | some _ => .error ("The truth value of a DataFrame is ambiguous")

/-- Python `x or y` on optional DataFrames, as written on line 55 of
`src/strategies/macd_rsi_strategy.py`: evaluates the truth of `x`, which
raises whenever `x` is an actual DataFrame. -/
def pyOrFrame (x y : Option (List Row)) : Except String (Option (List Row)) := do
  let bx ← pyBoolFrame x
  if bx then pure x else pure y

/-- The literal reason string of `MacdRsiStrategy._create_buy_signal`
(`src/strategies/macd_rsi_strategy.py` line 136). -/
def buy_reason : String := "MACD positive, RSI in range, above BB lower"

/-- `MacdRsiStrategy._check_entry_conditions` from
`src/strategies/macd_rsi_strategy.py` lines 73-104. -/
def check_entry_conditions (cfg : MacdConfig) (latest : Row)
    (daily_data : Option (List Row)) : Bool :=
  let macd_line := latest.macd_line.getD 0
  let macd_signal := latest.macd_signal.getD 0
  if macd_line ≤ cfg.macd_threshold ∨ macd_signal ≤ cfg.macd_threshold then false
  else
    let rsi := latest.rsi_14.getD 50
    if ¬ (cfg.rsi_min ≤ rsi ∧ rsi ≤ cfg.rsi_max) then false
    else if cfg.bb_filter ∧ latest.close < latest.bb_lower.getD 0 then false
    else
      match daily_data with
      | some dd =>
        if cfg.daily_trend_filter then BaseStrategy.check_daily_trend dd else true
      | none => true

/-- `MacdRsiStrategy._calculate_confidence` from
`src/strategies/macd_rsi_strategy.py` lines 143-173. -/
def macd_calculate_confidence (latest : Row) (data : List Row) : ℚ :=
  let c1 : ℚ := 0.5
  let c2 := c1 +
    (if latest.macd_signal.getD 0 < latest.macd_line.getD 0 then 0.15 else 0)
  let rsi := latest.rsi_14.getD 50
  let c3 := c2 +
    (if 45 ≤ rsi ∧ rsi ≤ 55 then 0.15
    else if 40 ≤ rsi ∧ rsi ≤ 60 then 0.10 else 0)
  let bb_lower := latest.bb_lower.getD 0
  let bb_upper := latest.bb_upper.getD 0
  let c4 := c3 +
    (if bb_lower < bb_upper then
      (if 0.2 ≤ (latest.close - bb_lower) / (bb_upper - bb_lower) ∧
          (latest.close - bb_lower) / (bb_upper - bb_lower) ≤ 0.5
        then 0.10 else 0)
    else 0)
  let c5 := c4 +
    (if BaseStrategy.check_volume_confirmation data 1.2 then 0.10 else 0)
  min c5 1

/-- `MacdRsiStrategy._create_buy_signal` from
`src/strategies/macd_rsi_strategy.py` lines 106-141 (the input frames carry
no `symbol` column, so the symbol falls back to `"UNKNOWN"`). -/
def create_buy_signal (cfg : MacdConfig) (latest : Row) (data : List Row) :
    Signal :=
  let confidence := macd_calculate_confidence latest data
  let atr := latest.atr.getD (latest.close * 0.02)
  let stop_loss := BaseStrategy.get_stop_loss cfg.stop_loss_atr_mult
    latest.close atr ("long")
  let take_profit := BaseStrategy.get_take_profit cfg.profit_target_pct
    latest.close ("long")
  ⟨"UNKNOWN", SignalType.BUY, latest.close, confidence, buy_reason,
    some stop_loss, some take_profit, none⟩

/-- `MacdRsiStrategy.generate_signals` from
`src/strategies/macd_rsi_strategy.py` lines 42-71, including the
`data.get(15min) or data.get(primary)` expression, whose truth test of a
DataFrame raises inside pandas. -/
def generate_signals (cfg : MacdConfig) (data : TFData) :
    Except String (List Signal) := do
  let primary_data ← pyOrFrame data.fifteen_min data.primary
  match primary_data with
  | none => pure []
  | some pd =>
    if pd.isEmpty then pure []
    else
      let daily_data := data.daily
      let latest := pd.getLastD default
      if check_entry_conditions cfg latest daily_data then
        pure [create_buy_signal cfg latest pd]
      else pure []

/-- Claim C4 (code bug): `MacdRsiStrategy.generate_signals` is not total —
on every well-formed bundle whose `15min` key holds a DataFrame (here a
single default bar) the `or` expression forces `bool(DataFrame)` and pandas
raises, so no signal list is returned. -/
theorem macd_generate_signals_raises :
    generate_signals macdDefaultConfig ⟨some [default], none, none, none⟩ =
      .error ("The truth value of a DataFrame is ambiguous") := rfl

end MacdRsiStrategy

namespace Engine

/-- Python `reason.split()[0]`: the first whitespace-delimited word (none of
the reason strings of the engine begins with whitespace). -/
def firstWord (s : String) : String :=
  String.mk (s.data.takeWhile (fun c => c ≠ ' '))

/-- ASCII lowering of one character, as `str.lower()` acts on the ASCII
ASCII strategy names. -/
def lowerChar (c : Char) : Char :=
  if 65 ≤ c.toNat ∧ c.toNat ≤ 90 then Char.ofNat (c.toNat + 32) else c

/-- Python `s.lower()` on ASCII strings. -/
def pyLower (s : String) : String := String.mk (s.data.map lowerChar)

/-- A loaded strategy as the engine sees it: its `name` attribute. -/
structure StratInfo where
  name : String
  deriving Repr, DecidableEq, Inhabited

/-- `TradingEngine._get_strategy_by_name` from `src/core/engine.py`
lines 391-396: first loaded strategy whose name matches case-insensitively,
else `None`. -/
def get_strategy_by_name (strategies : List StratInfo) (name : String) :
    Option StratInfo :=
  strategies.find? (fun s => pyLower s.name == pyLower name)

/-- The strategy `_execute_buy_signal` uses for position sizing
(`src/core/engine.py` line 313): looked up by the first word of the
reason string of the signal; `none` means the hard-coded fallback sizing runs. -/
def buy_sizing_strategy (strategies : List StratInfo) (signal_reason : String) :
    Option StratInfo :=
  get_strategy_by_name strategies (firstWord signal_reason)

/-- The `strategy` tag recorded on the new position
(`src/core/engine.py` line 342): again the first word of the reason. -/
def recorded_strategy_tag (signal_reason : String) : String :=
  firstWord signal_reason

/-- The strategy `_check_exit_conditions` consults for an open position
(`src/core/engine.py` lines 187-188): looked up by the recorded tag; when
`none`, `should_exit` is never called for that position. -/
def exit_strategy_for_position (strategies : List StratInfo) (pos_tag : String) :
    Option StratInfo :=
  get_strategy_by_name strategies pos_tag

/-- The strategies `_load_strategies` registers when both configured
strategies are active: `SuperTrendStrategy` (name `"SuperTrend"`) and
`MacdRsiStrategy` (name `"MACD_RSI"`). -/
def loaded_strategies : List StratInfo := [⟨"SuperTrend"⟩, ⟨"MACD_RSI"⟩]

/-- Claim C2 (code bug): the engine recovers the owning strategy by
parsing `signal.reason.split()[0]`, not from the originating strategy.  For
a SuperTrend signal the first word of the reason happens to equal the strategy
name, but for a `MACD_RSI` buy signal the first word is `"MACD"`: the sizing
lookup fails (hard-coded fallback sizing runs instead of
`MacdRsiStrategy.calculate_position_size`), the position is tagged
`"MACD"` instead of the strategy name, and the exit lookup finds no strategy,
so `should_exit` is never evaluated for that position. -/
theorem engine_strategy_attribution_bug :
    buy_sizing_strategy loaded_strategies MacdRsiStrategy.buy_reason = none ∧
    recorded_strategy_tag MacdRsiStrategy.buy_reason = "MACD" ∧
    recorded_strategy_tag MacdRsiStrategy.buy_reason ≠ "MACD_RSI" ∧
    exit_strategy_for_position loaded_strategies
      (recorded_strategy_tag MacdRsiStrategy.buy_reason) = none ∧
    buy_sizing_strategy loaded_strategies SuperTrendStrategy.buy_reason =
      some ⟨"SuperTrend"⟩ ∧
    exit_strategy_for_position loaded_strategies
      (recorded_strategy_tag SuperTrendStrategy.buy_reason) =
      some ⟨"SuperTrend"⟩ := by
  refine ⟨by decide, by decide, by decide, by decide, by decide, by decide⟩

/-- The `results` dict built by `TradingEngine.execute_cycle`
(`src/core/engine.py` lines 102-110); the timestamp is not modelled. -/
structure CycleResults where
  symbols_analyzed : ℕ
  signals_generated : ℕ
  orders_placed : ℕ
  orders_failed : ℕ
  positions_exited : ℕ
  errors : List String
  deriving Repr, DecidableEq, Inhabited

/-- The per-symbol try/except of the cycle loop
(`src/core/engine.py` lines 119-133): run the symbol body; on an exception,
append `"symbol: error"` to the error list and continue. -/
def symbol_step (body : String → CycleResults → Except String CycleResults)
    (r : CycleResults) (sym : String) : CycleResults :=
  match body sym r with
  | .ok r2 => r2
  | .error e => { r with errors := r.errors ++ [sym ++ ": " ++ e] }

/-- `TradingEngine.execute_cycle` from `src/core/engine.py` lines 90-139,
abstracted over the per-symbol body (position lookup, data fetch, signal
generation, order dispatch): initialise the counters, return immediately
with the block message when the risk manager forbids trading, otherwise
fold the guarded body over the symbols. -/
def execute_cycle (can_trade : Bool)
    (body : String → CycleResults → Except String CycleResults)
    (symbols : List String) : CycleResults :=
  let results : CycleResults := ⟨symbols.length, 0, 0, 0, 0, []⟩
  if ¬ can_trade then
    { results with errors := results.errors ++ ["Trading blocked by risk manager"] }
  else
    symbols.foldl (symbol_step body) results

/-- Claim C7: when the risk manager denies trading, the whole cycle
short-circuits — the result is independent of the processing of the symbol list
and of the per-symbol body (so nothing is fetched, generated, opened or
closed), with zero counts and only the block message.  Conversely, with
trading allowed, even a first symbol whose body always raises only
contributes an error string: the remaining symbols are still folded, so no
single symbol aborts the cycle. -/
theorem execute_cycle_block_short_circuit
    (body : String → CycleResults → Except String CycleResults)
    (symbols : List String) :
    execute_cycle false body symbols =
      ⟨symbols.length, 0, 0, 0, 0, ["Trading blocked by risk manager"]⟩ ∧
    ∀ (sym e : String) (rest : List String),
      (∀ r, body sym r = .error e) →
      execute_cycle true body (sym :: rest) =
        rest.foldl (symbol_step body)
          ⟨(sym :: rest).length, 0, 0, 0, 0, [sym ++ ": " ++ e]⟩ := by
  constructor
  · rfl
  · intro sym e rest hb
    show (sym :: rest).foldl (symbol_step body)
        ⟨(sym :: rest).length, 0, 0, 0, 0, []⟩ = _
    rw [List.foldl_cons]
    have h1 : symbol_step body ⟨(sym :: rest).length, 0, 0, 0, 0, []⟩ sym =
        ⟨(sym :: rest).length, 0, 0, 0, 0, [sym ++ ": " ++ e]⟩ := by
      rw [symbol_step, hb]
      rfl
    rw [h1]

/-- Witness for C7: a concrete two-symbol cycle with an always-raising body,
once blocked and once allowed. -/
theorem execute_cycle_block_short_circuit_witness :
    execute_cycle false (fun _ _ => .error ("boom")) ["A", "B"] =
      ⟨2, 0, 0, 0, 0, ["Trading blocked by risk manager"]⟩ ∧
    execute_cycle true (fun _ _ => .error ("boom")) ["A", "B"] =
      List.foldl (symbol_step (fun _ _ => .error ("boom")))
        ⟨2, 0, 0, 0, 0, ["A" ++ ": " ++ "boom"]⟩ ["B"] := by
  have h := execute_cycle_block_short_circuit (fun _ _ => .error ("boom")) ["A", "B"]
  exact ⟨h.1, h.2 ("A") ("boom") ["B"] (fun _ => rfl)⟩

end Engine

end Falah
